import Mathlib

/-!
Verification development for the `dlvod` pipeline tool (`src/main.rs`).

The Rust program is shallowly embedded below:
* `slug` embeds `fn slug` (main.rs:17-22): ASCII-lowercase then keep only
  ASCII alphanumeric characters.
* `waitCmd` embeds `fn wait_cmd` (main.rs:24-40): a non-blocking polling
  loop over `try_wait`, with a cancellation check and `kill` between polls.
  The OS process is modelled by its observed poll result at each tick
  (`Poll`), the shared `AtomicBool` flag by a `Nat → Bool` observation
  function, and the 100 ms sleep by one tick of the discrete clock.  Fuel
  makes the loop a total function; `none` means the fuel ran out before the
  loop stopped.
* `relay` embeds the copy loop of `download_run` (main.rs:243-259).  One
  `RelayIter` records what the environment did at one iteration: the result
  of `read` on yt-dlp's stdout, how many bytes the single `write` call on
  ffmpeg's stdin accepted (`none` = the write errored), and the value of the
  cancellation flag at the iteration's check.  An exhausted trace stands for
  a source at end of stream: further reads return 0 bytes.  Note the source
  calls `write` once and discards the accepted count, which the model
  reflects with `List.take`.
* `drainLoop` embeds the stderr thread (main.rs:227-241): read lines until
  a read returns 0 or errs, both of which just break the loop.
* `downloadRun` embeds the control flow of `fn download_run`
  (main.rs:152-269): spawn yt-dlp, spawn ffmpeg (each `?` on failure), run
  the relay, then `wait_cmd` on yt-dlp, then on ffmpeg, then join the
  stderr thread; every `?` short-circuits the rest of the function.
* `runTryFrom` and `getPendingRuns` embed `Run::try_from` (main.rs:60-119)
  and `get_pending_runs` (main.rs:131-150) over a JSON value model `JVal`
  that mirrors `serde_json::Value` indexing (missing key or wrong shape
  yields `null`).  The external iso8601 duration parser is a parameter.
* `signal` embeds the ctrl-c handler's `done.store(true, SeqCst)`
  (main.rs:278); `killChild` embeds `std::process::Child::kill`, which on
  Unix signals the (possibly zombie) process when the child has not yet
  been reaped by a successful wait, and returns an `InvalidInput` error
  only when the child's exit status was already collected.
-/

namespace Dlvod

/-- One character of a string, as its Unicode scalar value. -/
abbrev UChar := Nat

/-- Embeds `u8::to_ascii_lowercase` applied charwise by
`str::to_ascii_lowercase` (main.rs:18). -/
def charLower (c : Char) : Char :=
  if 65 ≤ c.toNat ∧ c.toNat ≤ 90 then Char.ofNat (c.toNat + 32) else c

/-- Embeds `char::is_ascii_alphanumeric` (main.rs:20). -/
def charIsAsciiAlphanumeric (c : Char) : Bool :=
  decide ((48 ≤ c.toNat ∧ c.toNat ≤ 57) ∨ (65 ≤ c.toNat ∧ c.toNat ≤ 90) ∨
    (97 ≤ c.toNat ∧ c.toNat ≤ 122))

/-- Embeds `fn slug` (main.rs:17-22): lowercase the string bytewise in
ASCII, then keep only the ASCII alphanumeric characters. -/
def slug (s : String) : String :=
  ⟨(s.data.map charLower).filter charIsAsciiAlphanumeric⟩

/-- Result of one `child.try_wait()` poll (main.rs:26). -/
inductive Poll
  | running
  | exited (code : Nat)
  | pollErr
deriving Repr, DecidableEq

/-- Outcome of `wait_cmd`: `Ok(())` on exit code 0, a `failed: {status}`
error on nonzero exit, an `error: {e}` error when `try_wait` itself fails,
and a `Ctrl+C` error after killing the child when the flag is seen set. -/
inductive WaitOutcome
  | success
  | failedExit (code : Nat)
  | waitIoErr
  | cancelled
deriving Repr, DecidableEq

/-- The fixed sleep between polls, `Duration::from_millis(100)`
(main.rs:38). -/
def pollIntervalMillis : Nat := 100

/-- Embeds `fn wait_cmd` (main.rs:24-40).  `st t` is what `try_wait`
reports at tick `t`, `dn t` is the flag at tick `t`.  Returns the outcome,
whether `kill` was issued on this child, and the tick at which the loop
stopped; `none` when the fuel ran out first. -/
def waitCmd : Nat → (Nat → Poll) → (Nat → Bool) → Nat → Option (WaitOutcome × Bool × Nat)
  | 0, _, _, _ => none
  | fuel + 1, st, dn, t =>
    match st t with
    | .exited c => if c = 0 then some (.success, false, t) else some (.failedExit c, false, t)
    | .pollErr => some (.waitIoErr, false, t)
    | .running =>
      if dn t then some (.cancelled, true, t)
      else waitCmd fuel st dn (t + 1)

/-- The flag is only ever stored `true` and never reset (main.rs:278). -/
def MonotoneFlag (dn : Nat → Bool) : Prop :=
  ∀ i j, i ≤ j → dn i = true → dn j = true

/-- Result of one `yt_dlp_stdout.read(&mut buf)` (main.rs:246-248):
either a chunk of bytes (empty = end of stream) or an I/O error. -/
inductive ReadRes
  | bytes (data : List Nat)
  | readErr
deriving Repr, DecidableEq

/-- What the environment did at one iteration of the relay loop. -/
structure RelayIter where
  read : ReadRes
  writeAccepted : Option Nat
  done : Bool
deriving Repr, DecidableEq

/-- Why the relay loop stopped. -/
inductive RelayStop
  | orderly
  | readFailed
  | writeFailed
deriving Repr, DecidableEq

/-- Observable outcome of the relay loop: the bytes the sink accepted, in
order; whether the `drop(yt_dlp_stdout); drop(ffmpeg_stdin)` statements
ran; and why the loop stopped. -/
structure RelayRes where
  delivered : List Nat
  closed : Bool
  stop : RelayStop
deriving Repr, DecidableEq

/-- Embeds the relay loop of `download_run` (main.rs:245-259): read a
chunk, `write` it once to ffmpeg's stdin (the accepted count is returned
by `write` but the source discards it), then break — dropping both pipe
endpoints — when the read returned 0 bytes or the flag is set.  An
exhausted trace behaves as end of stream (reads return 0 bytes, the empty
write succeeds, the flag stays clear). -/
def relay : List RelayIter → RelayRes
  | [] => ⟨[], true, .orderly⟩
  | it :: rest =>
    match it.read with
    | .readErr => ⟨[], false, .readFailed⟩
    | .bytes data =>
      match it.writeAccepted with
      | none => ⟨[], false, .writeFailed⟩
      | some k =>
        if (data.length == 0) || it.done then
          ⟨data.take k, true, .orderly⟩
        else
          let r := relay rest
          ⟨data.take k ++ r.delivered, r.closed, r.stop⟩

/-- Result of one `reader.read_line(&mut buf)` in the stderr thread
(main.rs:233). -/
inductive LineRes
  | line (s : String)
  | eofLine
  | lineErr
deriving Repr, DecidableEq

/-- Embeds the stderr-draining thread's loop (main.rs:231-240): print each
line read; a zero-byte read and a read error both just break the loop (the
`_ => break` arm).  Returns how many lines were rendered. -/
def drainLoop : List LineRes → Nat
  | [] => 0
  | .line _ :: rest => drainLoop rest + 1
  | .eofLine :: _ => 0
  | .lineErr :: _ => 0

/-- The environment one call of `download_run` runs in: whether each
`Command::spawn` succeeds (main.rs:220-221), the relay trace, each child's
poll results and the flag observations during its `wait_cmd` loop, and the
stderr thread's read results. -/
structure DlEnv where
  spawnAok : Bool
  spawnBok : Bool
  iters : List RelayIter
  statusA : Nat → Poll
  statusB : Nat → Poll
  doneA : Nat → Bool
  doneB : Nat → Bool
  stderrLines : List LineRes

/-- The `Result` value `download_run` returns, by the `?` that produced
it.  `outOfFuel` marks a model run whose wait-loop fuel ran out. -/
inductive RunResult
  | ok
  | spawnAFailed
  | spawnBFailed
  | relayReadErr
  | relayWriteErr
  | stageAFailed (code : Nat)
  | stageAWaitErr
  | cancelledAtA
  | stageBFailed (code : Nat)
  | stageBWaitErr
  | cancelledAtB
  | outOfFuel
deriving Repr, DecidableEq

/-- Observable trace of one `download_run` call.  `spawnedB` records
whether ffmpeg's `spawn` was reached; `killedA`/`killedB` whether `kill`
was issued on each child; `closedEndpoints` whether the two `drop` calls
at the end of the relay loop ran; `waitedA`/`waitedB` whether each
`wait_cmd` call was reached; `drainLines` how many progress lines the
stderr thread rendered; `drainJoined` whether `stderr_thread.join()` was
reached. -/
structure RunTrace where
  result : RunResult
  spawnedA : Bool
  spawnedB : Bool
  killedA : Bool
  killedB : Bool
  closedEndpoints : Bool
  delivered : List Nat
  waitedA : Bool
  waitedB : Bool
  drainLines : Nat
  drainJoined : Bool
deriving Repr, DecidableEq

/-- Embeds the control flow of `fn download_run` (main.rs:152-269): spawn
yt-dlp then ffmpeg, each `?` returning early on failure; spawn the stderr
thread; run the relay loop, its read/write `?`s returning early on I/O
error; then `wait_cmd(yt-dlp)?`, then `wait_cmd(ffmpeg)?`, then join the
stderr thread.  Each early return skips everything after it. -/
def downloadRun (fuel : Nat) (env : DlEnv) : RunTrace :=
  if env.spawnAok = false then
    ⟨.spawnAFailed, true, false, false, false, false, [], false, false, 0, false⟩
  else if env.spawnBok = false then
    ⟨.spawnBFailed, true, true, false, false, false, [], false, false, 0, false⟩
  else
    let dl := drainLoop env.stderrLines
    let r := relay env.iters
    match r.stop with
    | .readFailed =>
      ⟨.relayReadErr, true, true, false, false, r.closed, r.delivered, false, false, dl, false⟩
    | .writeFailed =>
      ⟨.relayWriteErr, true, true, false, false, r.closed, r.delivered, false, false, dl, false⟩
    | .orderly =>
      match waitCmd fuel env.statusA env.doneA 0 with
      | none =>
        ⟨.outOfFuel, true, true, false, false, r.closed, r.delivered, true, false, dl, false⟩
      | some (oA, kA, _) =>
        match oA with
        | .failedExit c =>
          ⟨.stageAFailed c, true, true, kA, false, r.closed, r.delivered, true, false, dl, false⟩
        | .waitIoErr =>
          ⟨.stageAWaitErr, true, true, kA, false, r.closed, r.delivered, true, false, dl, false⟩
        | .cancelled =>
          ⟨.cancelledAtA, true, true, kA, false, r.closed, r.delivered, true, false, dl, false⟩
        | .success =>
          match waitCmd fuel env.statusB env.doneB 0 with
          | none =>
            ⟨.outOfFuel, true, true, kA, false, r.closed, r.delivered, true, true, dl, false⟩
          | some (oB, kB, _) =>
            match oB with
            | .failedExit c =>
              ⟨.stageBFailed c, true, true, kA, kB, r.closed, r.delivered, true, true, dl, false⟩
            | .waitIoErr =>
              ⟨.stageBWaitErr, true, true, kA, kB, r.closed, r.delivered, true, true, dl, false⟩
            | .cancelled =>
              ⟨.cancelledAtB, true, true, kA, kB, r.closed, r.delivered, true, true, dl, false⟩
            | .success =>
              ⟨.ok, true, true, kA, kB, r.closed, r.delivered, true, true, dl, true⟩

/-- Embeds the ctrl-c handler's `done.store(true, Ordering::SeqCst)`
(main.rs:278) as a function on the flag's value. -/
def signal (_flag : Bool) : Bool := true

/-- State of a `std::process::Child` handle as far as `kill` is concerned:
whether the OS process has exited, and whether its exit status has already
been collected by a successful wait (after which the pid may be recycled). -/
structure ChildHandle where
  exited : Bool
  reaped : Bool
deriving Repr, DecidableEq

/-- Embeds `std::process::Child::kill`: an `InvalidInput` error when the
child was already reaped, otherwise the signal is delivered (an exited but
unreaped child is still a valid zombie pid, so the signal succeeds). -/
def killChild (h : ChildHandle) : Except String Unit :=
  if h.reaped then .error "InvalidInput" else .ok ()

/-- Model of `serde_json::Value`. -/
inductive JVal
  | null
  | jbool (b : Bool)
  | num (n : Int)
  | str (s : String)
  | arr (xs : List JVal)
  | obj (kvs : List (String × JVal))

/-- Embeds `Value::index` by string key: `Null` when the value is not an
object or the key is absent. -/
def JVal.get (v : JVal) (key : String) : JVal :=
  match v with
  | .obj kvs =>
    match kvs.find? (fun kv => kv.1 == key) with
    | some kv => kv.2
    | none => .null
  | _ => .null

/-- Embeds `Value::index` by numeric index: `Null` when the value is not
an array or the index is out of range. -/
def JVal.getIdx (v : JVal) (i : Nat) : JVal :=
  match v with
  | .arr xs => xs.getD i .null
  | _ => .null

/-- Embeds `Value::as_str`. -/
def JVal.asStr : JVal → Option String
  | .str s => some s
  | _ => none

/-- Embeds `Value::as_array`. -/
def JVal.asArr : JVal → Option (List JVal)
  | .arr xs => some xs
  | _ => none

/-- Embeds anyhow's `Option::context`: `None` becomes an error with the
given message. -/
def orErr {α : Type} (o : Option α) (msg : String) : Except String α :=
  match o with
  | some a => .ok a
  | none => .error msg

/-- Embeds `format!("{n:02}")` for the time components (main.rs:105). -/
def fmt2 (n : Nat) : String :=
  if n < 10 then "0" ++ toString n else toString n

/-- Embeds the `{h:02}:{m:02}:{s:02}` formatting of the parsed duration's
whole seconds (main.rs:100-105). -/
def fmtTime (asSecs : Nat) : String :=
  fmt2 (asSecs / 3600) ++ ":" ++ fmt2 ((asSecs / 60) % 60) ++ ":" ++ fmt2 (asSecs % 60)

/-- Embeds `struct Run` (main.rs:42-52). -/
structure Run where
  run_id : String
  vod_uri : String
  player : String
  game : String
  game_name : String
  cat_full : String
  cat : String
  time : String
deriving Repr, DecidableEq

/-- Embeds `Run::filename` (main.rs:55-57). -/
def Run.filename (r : Run) : String :=
  r.player ++ "-" ++ r.game ++ "-" ++ r.cat ++ "-" ++ r.run_id

/-- Embeds `Run::try_from(&Value)` (main.rs:63-118).  The external
`iso8601_duration::Duration::parse` composed with `to_std` is the
parameter `parseDur`, yielding the duration's whole seconds or a parse
error. -/
def runTryFrom (parseDur : String → Except String Nat) (v : JVal) : Except String Run := do
  let run_id ← orErr (v.get "id").asStr "Can't read run ID"
  let vod_uri ← orErr ((((v.get "videos").get "links").getIdx 0).get "uri").asStr
    "Can't read VOD URI"
  let player ← orErr (((((v.get "players").get "data").getIdx 0).get "names").get
    "international").asStr "Can't read player data"
  let game ← orErr (((v.get "game").get "data").get "abbreviation").asStr
    "Can't read game data"
  let game_name ← orErr ((((v.get "game").get "data").get "names").get "twitch").asStr
    "Can't read game name"
  let cat_full ← orErr (((v.get "category").get "data").get "name").asStr
    "Can't read category name"
  let cat := slug cat_full
  let tstr ← orErr ((v.get "times").get "primary").asStr "Couldn't read run time"
  let secs ← parseDur tstr
  let time := fmtTime secs
  pure { run_id, vod_uri, player, game, game_name, cat_full, cat, time }

/-- Embeds the response handling of `get_pending_runs` (main.rs:143-149)
from the parsed response body onward: take the `data` array (error
`Unexpected value` when it is not an array) and collect the per-element
`Run::try_from` results, the first element error failing the whole
collection. -/
def getPendingRuns (parseDur : String → Except String Nat) (body : JVal) :
    Except String (List Run) :=
  match (body.get "data").asArr with
  | none => .error "Unexpected value"
  | some xs => xs.mapM (runTryFrom parseDur)

/-- Soundness of the `wait_cmd` loop: when it stops at tick `ts`, every
earlier tick saw a running process and a clear flag, and the outcome is
determined by what tick `ts` saw. -/
theorem waitCmd_sound (fuel : Nat) (st : Nat → Poll) (dn : Nat → Bool) (t : Nat)
    (o : WaitOutcome) (k : Bool) (ts : Nat)
    (h : waitCmd fuel st dn t = some (o, k, ts)) :
    t ≤ ts ∧
    (∀ s, t ≤ s → s < ts → st s = .running ∧ dn s = false) ∧
    ((o = .success ∧ k = false ∧ st ts = .exited 0) ∨
     (∃ c, c ≠ 0 ∧ o = .failedExit c ∧ k = false ∧ st ts = .exited c) ∨
     (o = .waitIoErr ∧ k = false ∧ st ts = .pollErr) ∨
     (o = .cancelled ∧ k = true ∧ st ts = .running ∧ dn ts = true)) := by
  induction fuel generalizing t with
  | zero => simp [waitCmd] at h
  | succ fuel ih =>
    rw [waitCmd] at h
    cases hst : st t with
    | exited c =>
      rw [hst] at h
      dsimp only at h
      by_cases hc : c = 0
      · subst hc
        rw [if_pos rfl] at h
        injection h with h2
        injection h2 with ho h3
        injection h3 with hk hts
        subst ho; subst hk; subst hts
        exact ⟨le_refl t, fun s hs1 hs2 => absurd (lt_of_le_of_lt hs1 hs2) (lt_irrefl t),
          Or.inl ⟨rfl, rfl, hst⟩⟩
      · rw [if_neg hc] at h
        injection h with h2
        injection h2 with ho h3
        injection h3 with hk hts
        subst ho; subst hk; subst hts
        exact ⟨le_refl t, fun s hs1 hs2 => absurd (lt_of_le_of_lt hs1 hs2) (lt_irrefl t),
          Or.inr (Or.inl ⟨c, hc, rfl, rfl, hst⟩)⟩
    | pollErr =>
      rw [hst] at h
      dsimp only at h
      injection h with h2
      injection h2 with ho h3
      injection h3 with hk hts
      subst ho; subst hk; subst hts
      exact ⟨le_refl t, fun s hs1 hs2 => absurd (lt_of_le_of_lt hs1 hs2) (lt_irrefl t),
        Or.inr (Or.inr (Or.inl ⟨rfl, rfl, hst⟩))⟩
    | running =>
      rw [hst] at h
      dsimp only at h
      cases hdn : dn t with
      | true =>
        rw [hdn, if_pos rfl] at h
        injection h with h2
        injection h2 with ho h3
        injection h3 with hk hts
        subst ho; subst hk; subst hts
        exact ⟨le_refl t, fun s hs1 hs2 => absurd (lt_of_le_of_lt hs1 hs2) (lt_irrefl t),
          Or.inr (Or.inr (Or.inr ⟨rfl, rfl, hst, hdn⟩))⟩
      | false =>
        rw [hdn, if_neg Bool.false_ne_true] at h
        obtain ⟨h1, h2, h3⟩ := ih (t + 1) h
        refine ⟨le_trans (Nat.le_succ t) h1, ?_, h3⟩
        intro s hs1 hs2
        rcases Nat.eq_or_lt_of_le hs1 with heq | hlt
        · exact heq ▸ ⟨hst, hdn⟩
        · exact h2 s hlt hs2

/-- The relay loop drops both pipe endpoints exactly on an orderly stop. -/
theorem relay_orderly_closed (its : List RelayIter)
    (h : (relay its).stop = .orderly) : (relay its).closed = true := by
  induction its with
  | nil => rfl
  | cons it rest ih =>
    obtain ⟨rd, wa, dnf⟩ := it
    cases rd with
    | readErr => simp [relay] at h
    | bytes data =>
      cases wa with
      | none => simp [relay] at h
      | some k =>
        by_cases hc : ((data.length == 0) || dnf) = true
        · simp [relay, hc]
        · have hc' : ((data.length == 0) || dnf) = false := by
            cases hb : ((data.length == 0) || dnf) with
            | true => exact absurd hb hc
            | false => rfl
          simp only [relay, hc', Bool.false_eq_true, if_false] at h ⊢
          exact ih h

/-- Collecting `mapM` results in `Except` succeeds only when every element
succeeds. -/
theorem mapM_ok_mem {α β : Type} (f : α → Except String β) (xs : List α)
    (ys : List β) (h : xs.mapM f = .ok ys) (v : α) (hv : v ∈ xs) :
    ∃ b, f v = .ok b := by
  induction xs generalizing ys with
  | nil => cases hv
  | cons x rest ih =>
    rw [List.mapM_cons] at h
    cases hfx : f x with
    | error e => rw [hfx] at h; simp [Bind.bind, Except.bind] at h
    | ok b =>
      rw [hfx] at h
      simp only [Bind.bind, Except.bind] at h
      cases hrest : rest.mapM f with
      | error e => rw [hrest] at h; simp at h
      | ok ys' =>
        rw [hrest] at h
        cases hv with
        | head => exact ⟨b, hfx⟩
        | tail _ hv' => exact ih ys' hrest hv'

/-- ASCII lowercasing never produces an ASCII uppercase letter. -/
theorem charLower_not_upper (c : Char) :
    ¬(65 ≤ (charLower c).toNat ∧ (charLower c).toNat ≤ 90) := by
  rw [charLower]
  by_cases h : 65 ≤ c.toNat ∧ c.toNat ≤ 90
  · rw [if_pos h]
    obtain ⟨h1, h2⟩ := h
    have h97 : 97 ≤ c.toNat + 32 := by omega
    have h122 : c.toNat + 32 ≤ 122 := by omega
    generalize c.toNat + 32 = m at h97 h122
    interval_cases m <;> decide
  · rw [if_neg h]
    exact h

/-- Every character of a `slug` result is an ASCII lowercase letter or an
ASCII digit. -/
theorem slug_mem_class (s : String) (c : Char) (hc : c ∈ (slug s).data) :
    (97 ≤ c.toNat ∧ c.toNat ≤ 122) ∨ (48 ≤ c.toNat ∧ c.toNat ≤ 57) := by
  have hdata : (slug s).data = (s.data.map charLower).filter charIsAsciiAlphanumeric := rfl
  rw [hdata] at hc
  rw [List.mem_filter] at hc
  obtain ⟨hmem, hpred⟩ := hc
  rw [List.mem_map] at hmem
  obtain ⟨c0, _, hc0⟩ := hmem
  have hclass : (48 ≤ c.toNat ∧ c.toNat ≤ 57) ∨ (65 ≤ c.toNat ∧ c.toNat ≤ 90) ∨
      (97 ≤ c.toNat ∧ c.toNat ≤ 122) := by
    have := of_decide_eq_true hpred
    exact this
  have hnup : ¬(65 ≤ c.toNat ∧ c.toNat ≤ 90) := hc0 ▸ charLower_not_upper c0
  rcases hclass with h | h | h
  · exact Or.inr h
  · exact absurd h hnup
  · exact Or.inl h

/-- Inversion of `Run::try_from`: a successful conversion means every
required field was present as a string, and the `cat` field is the slug of
the category name. -/
theorem runTryFrom_ok_fields (pd : String → Except String Nat) (v : JVal) (r : Run)
    (h : runTryFrom pd v = .ok r) :
    (v.get "id").asStr = some r.run_id ∧
    ((((v.get "videos").get "links").getIdx 0).get "uri").asStr = some r.vod_uri ∧
    (((((v.get "players").get "data").getIdx 0).get "names").get "international").asStr
      = some r.player ∧
    (((v.get "game").get "data").get "abbreviation").asStr = some r.game ∧
    ((((v.get "game").get "data").get "names").get "twitch").asStr = some r.game_name ∧
    (((v.get "category").get "data").get "name").asStr = some r.cat_full ∧
    ((v.get "times").get "primary").asStr ≠ none ∧
    r.cat = slug r.cat_full := by
  rw [runTryFrom] at h
  cases h1 : (v.get "id").asStr with
  | none => rw [h1] at h; simp [orErr, Bind.bind, Except.bind] at h
  | some run_id =>
  rw [h1] at h
  simp only [orErr, Bind.bind, Except.bind] at h
  cases h2 : ((((v.get "videos").get "links").getIdx 0).get "uri").asStr with
  | none => rw [h2] at h; simp at h
  | some vod_uri =>
  rw [h2] at h
  simp only at h
  cases h3 : (((((v.get "players").get "data").getIdx 0).get "names").get
      "international").asStr with
  | none => rw [h3] at h; simp at h
  | some player =>
  rw [h3] at h
  simp only at h
  cases h4 : (((v.get "game").get "data").get "abbreviation").asStr with
  | none => rw [h4] at h; simp at h
  | some game =>
  rw [h4] at h
  simp only at h
  cases h5 : ((((v.get "game").get "data").get "names").get "twitch").asStr with
  | none => rw [h5] at h; simp at h
  | some game_name =>
  rw [h5] at h
  simp only at h
  cases h6 : (((v.get "category").get "data").get "name").asStr with
  | none => rw [h6] at h; simp at h
  | some cat_full =>
  rw [h6] at h
  simp only at h
  cases h7 : ((v.get "times").get "primary").asStr with
  | none => rw [h7] at h; simp at h
  | some tstr =>
  rw [h7] at h
  simp only at h
  cases h8 : pd tstr with
  | error e => rw [h8] at h; simp at h
  | ok secs =>
  rw [h8] at h
  simp only [pure, Except.pure, Except.ok.injEq] at h
  subst h
  exact ⟨rfl, rfl, rfl, rfl, rfl, rfl, Option.some_ne_none tstr, rfl⟩

/-- Invariants of `download_run` that hold on every control path: yt-dlp's
spawn is always attempted first; whenever a `wait_cmd` call is reached the
two pipe endpoints were already dropped; and the stderr thread's reads
never influence the returned `Result`. -/
theorem downloadRun_invariants (fuel : Nat) (env : DlEnv) :
    (downloadRun fuel env).spawnedA = true ∧
    ((downloadRun fuel env).waitedA = true → (downloadRun fuel env).closedEndpoints = true) ∧
    ∀ ls, (downloadRun fuel { env with stderrLines := ls }).result = (downloadRun fuel env).result := by
  obtain ⟨A, B, its, sA, sB, dA, dB, lines⟩ := env
  cases A with
  | false => simp [downloadRun]
  | true =>
    cases B with
    | false => simp [downloadRun]
    | true =>
      cases hr : (relay its).stop with
      | readFailed => simp [downloadRun, hr]
      | writeFailed => simp [downloadRun, hr]
      | orderly =>
        have hcl := relay_orderly_closed its hr
        rcases hwA : waitCmd fuel sA dA 0 with _ | ⟨oA, kA, tA⟩
        · simp [downloadRun, hr, hwA, hcl]
        · cases oA with
          | success =>
            rcases hwB : waitCmd fuel sB dB 0 with _ | ⟨oB, kB, tB⟩
            · simp [downloadRun, hr, hwA, hwB, hcl]
            · cases oB <;> simp [downloadRun, hr, hwA, hwB, hcl]
          | failedExit c => simp [downloadRun, hr, hwA, hcl]
          | waitIoErr => simp [downloadRun, hr, hwA, hcl]
          | cancelled => simp [downloadRun, hr, hwA, hcl]

/-- C1: the claim states that the relay loop delivers every source byte to
ffmpeg's stdin, looping on short writes until all requested bytes are
accepted.  The code calls `write` once per chunk and discards the accepted
count (main.rs:250-252), so a short write silently loses the tail of the
chunk: on a source chunk `[1, 2]` whose single write accepts only 1 byte,
the sink receives `[1]`, not `[1, 2]`.  This theorem evaluates the
embedded loop at that failing input. -/
theorem relay_short_write_loses_bytes :
    (relay [⟨.bytes [1, 2], some 1, false⟩]).delivered = [1] ∧
    (relay [⟨.bytes [1, 2], some 1, false⟩]).delivered ≠ [1, 2] := by
  decide

/-- C2 (counterexample): the claim says a cancelled run issues a kill
request to both stages.  With both children still running and the flag
set, `wait_cmd(yt-dlp)` kills yt-dlp and returns the `Ctrl+C` error, whose
`?` propagation skips `wait_cmd(ffmpeg)` entirely: ffmpeg is never killed.
Moreover when both children have already exited 0 by the time they are
waited on, a run whose flag was set still reports success, not Cancelled. -/
theorem downloadRun_cancel_cex :
    (downloadRun 1 ⟨true, true, [], fun _ => .running, fun _ => .running,
        fun _ => true, fun _ => true, []⟩).result = .cancelledAtA ∧
    (downloadRun 1 ⟨true, true, [], fun _ => .running, fun _ => .running,
        fun _ => true, fun _ => true, []⟩).killedA = true ∧
    ¬((downloadRun 1 ⟨true, true, [], fun _ => .running, fun _ => .running,
        fun _ => true, fun _ => true, []⟩).killedB = true) ∧
    (downloadRun 1 ⟨true, true, [], fun _ => .exited 0, fun _ => .exited 0,
        fun _ => true, fun _ => true, []⟩).result = .ok := by
  decide

/-- C2 (amended): when the Cancellation Signal is set and yt-dlp's wait
loop observes it while yt-dlp is still running, `download_run` returns the
Cancelled outcome, a kill request is issued to yt-dlp within one polling
interval of the signal being observable, and ffmpeg is neither waited on
nor killed by `download_run` — the error propagates first. -/
theorem downloadRun_cancel_behavior (fuel : Nat) (env : DlEnv) (kA : Bool) (tA : Nat)
    (hA : env.spawnAok = true) (hB : env.spawnBok = true)
    (hr : (relay env.iters).stop = .orderly)
    (hw : waitCmd fuel env.statusA env.doneA 0 = some (.cancelled, kA, tA)) :
    (downloadRun fuel env).result = .cancelledAtA ∧
    (downloadRun fuel env).killedA = true ∧
    (downloadRun fuel env).killedB = false ∧
    (downloadRun fuel env).waitedB = false ∧
    ∀ t0, env.doneA t0 = true → tA ≤ t0 := by
  obtain ⟨-, hpre, hdisj⟩ := waitCmd_sound fuel env.statusA env.doneA 0 _ _ _ hw
  have hkA : kA = true := by
    rcases hdisj with ⟨hco, -, -⟩ | ⟨c, -, hco, -, -⟩ | ⟨hco, -, -⟩ | ⟨-, hk, -, -⟩
    · exact WaitOutcome.noConfusion hco
    · exact WaitOutcome.noConfusion hco
    · exact WaitOutcome.noConfusion hco
    · exact hk
  subst hkA
  refine ⟨by simp [downloadRun, hA, hB, hr, hw], by simp [downloadRun, hA, hB, hr, hw],
    by simp [downloadRun, hA, hB, hr, hw], by simp [downloadRun, hA, hB, hr, hw], ?_⟩
  intro t0 hd0
  by_contra hlt
  push_neg at hlt
  rw [(hpre t0 (Nat.zero_le t0) hlt).2] at hd0
  exact Bool.noConfusion hd0

/-- C2 (witness): a concrete cancelled run exercising the amended claim. -/
theorem downloadRun_cancel_behavior_witness :
    (downloadRun 1 ⟨true, true, [], fun _ => .running, fun _ => .running,
        fun _ => true, fun _ => false, []⟩).result = .cancelledAtA ∧
    (downloadRun 1 ⟨true, true, [], fun _ => .running, fun _ => .running,
        fun _ => true, fun _ => false, []⟩).killedB = false :=
  ⟨(downloadRun_cancel_behavior 1 ⟨true, true, [], fun _ => .running, fun _ => .running,
      fun _ => true, fun _ => false, []⟩ true 0 rfl rfl rfl rfl).1,
   (downloadRun_cancel_behavior 1 ⟨true, true, [], fun _ => .running, fun _ => .running,
      fun _ => true, fun _ => false, []⟩ true 0 rfl rfl rfl rfl).2.2.1⟩

/-- C3 (counterexample): the claim says that when yt-dlp exits nonzero,
ffmpeg is killed if still running.  With yt-dlp exited with code 1 and
ffmpeg still running, `wait_cmd(yt-dlp)` bails with the failure and the
`?` skips `wait_cmd(ffmpeg)`: ffmpeg is never killed (nor waited on). -/
theorem downloadRun_stagefail_cex :
    (downloadRun 1 ⟨true, true, [], fun _ => .exited 1, fun _ => .running,
        fun _ => false, fun _ => false, []⟩).result = .stageAFailed 1 ∧
    ¬((downloadRun 1 ⟨true, true, [], fun _ => .exited 1, fun _ => .running,
        fun _ => false, fun _ => false, []⟩).killedB = true) := by
  decide

/-- C3 (amended): when yt-dlp's wait observes a nonzero exit code `c`, the
result of `download_run` is the StageFailed error identifying yt-dlp and
carrying `c`, and ffmpeg is neither waited on nor killed by
`download_run` — the error propagates before ffmpeg's wait is reached. -/
theorem downloadRun_stagefail_behavior (fuel : Nat) (env : DlEnv) (c : Nat)
    (kA : Bool) (tA : Nat)
    (hA : env.spawnAok = true) (hB : env.spawnBok = true)
    (hr : (relay env.iters).stop = .orderly)
    (hw : waitCmd fuel env.statusA env.doneA 0 = some (.failedExit c, kA, tA)) :
    (downloadRun fuel env).result = .stageAFailed c ∧
    (downloadRun fuel env).killedB = false ∧
    (downloadRun fuel env).waitedB = false ∧
    c ≠ 0 ∧ env.statusA tA = .exited c := by
  obtain ⟨-, -, hdisj⟩ := waitCmd_sound fuel env.statusA env.doneA 0 _ _ _ hw
  have hc : c ≠ 0 ∧ env.statusA tA = .exited c := by
    rcases hdisj with ⟨hco, -, -⟩ | ⟨c', hc', hco, -, hst⟩ | ⟨hco, -, -⟩ | ⟨hco, -, -, -⟩
    · exact WaitOutcome.noConfusion hco
    · injection hco with hcc
      subst hcc
      exact ⟨hc', hst⟩
    · exact WaitOutcome.noConfusion hco
    · exact WaitOutcome.noConfusion hco
  exact ⟨by simp [downloadRun, hA, hB, hr, hw], by simp [downloadRun, hA, hB, hr, hw],
    by simp [downloadRun, hA, hB, hr, hw], hc.1, hc.2⟩

/-- C3 (witness): a concrete run where yt-dlp exits with code 1. -/
theorem downloadRun_stagefail_behavior_witness :
    (downloadRun 1 ⟨true, true, [], fun _ => .exited 1, fun _ => .exited 0,
        fun _ => false, fun _ => false, []⟩).result = .stageAFailed 1 ∧
    (downloadRun 1 ⟨true, true, [], fun _ => .exited 1, fun _ => .exited 0,
        fun _ => false, fun _ => false, []⟩).killedB = false :=
  ⟨(downloadRun_stagefail_behavior 1 ⟨true, true, [], fun _ => .exited 1, fun _ => .exited 0,
      fun _ => false, fun _ => false, []⟩ 1 false 0 rfl rfl rfl rfl).1,
   (downloadRun_stagefail_behavior 1 ⟨true, true, [], fun _ => .exited 1, fun _ => .exited 0,
      fun _ => false, fun _ => false, []⟩ 1 false 0 rfl rfl rfl rfl).2.1⟩

/-- C4 (counterexample): the claim says that when either spawn fails, the
run is failed immediately, killing whichever stage already started.  When
ffmpeg's spawn fails, the already-spawned yt-dlp child is merely dropped:
no kill request is issued to it. -/
theorem downloadRun_spawnB_cex :
    (downloadRun 1 ⟨true, false, [], fun _ => .running, fun _ => .running,
        fun _ => false, fun _ => false, []⟩).result = .spawnBFailed ∧
    ¬((downloadRun 1 ⟨true, false, [], fun _ => .running, fun _ => .running,
        fun _ => false, fun _ => false, []⟩).killedA = true) := by
  decide

/-- C4 (amended): yt-dlp's spawn is always attempted first; when it fails,
`download_run` returns the spawn error without ever attempting ffmpeg's
spawn; when ffmpeg's spawn fails, the run fails immediately with the spawn
error, but the already-started yt-dlp is not killed. -/
theorem downloadRun_spawn_behavior (fuel : Nat) (env : DlEnv) :
    (downloadRun fuel env).spawnedA = true ∧
    (env.spawnAok = false →
      (downloadRun fuel env).result = .spawnAFailed ∧
      (downloadRun fuel env).spawnedB = false ∧
      (downloadRun fuel env).waitedA = false) ∧
    (env.spawnAok = true → env.spawnBok = false →
      (downloadRun fuel env).result = .spawnBFailed ∧
      (downloadRun fuel env).spawnedB = true ∧
      (downloadRun fuel env).killedA = false ∧
      (downloadRun fuel env).waitedA = false) := by
  refine ⟨(downloadRun_invariants fuel env).1, ?_, ?_⟩
  · intro hA
    simp [downloadRun, hA]
  · intro hA hB
    simp [downloadRun, hA, hB]

/-- C4 (witness): concrete runs exercising both spawn-failure branches. -/
theorem downloadRun_spawn_behavior_witness :
    (downloadRun 1 ⟨false, true, [], fun _ => .running, fun _ => .running,
        fun _ => false, fun _ => false, []⟩).result = .spawnAFailed ∧
    (downloadRun 1 ⟨false, true, [], fun _ => .running, fun _ => .running,
        fun _ => false, fun _ => false, []⟩).spawnedB = false :=
  ⟨((downloadRun_spawn_behavior 1 ⟨false, true, [], fun _ => .running, fun _ => .running,
      fun _ => false, fun _ => false, []⟩).2.1 rfl).1,
   ((downloadRun_spawn_behavior 1 ⟨false, true, [], fun _ => .running, fun _ => .running,
      fun _ => false, fun _ => false, []⟩).2.1 rfl).2.1⟩

/-- C5: `wait_cmd` polls non-blockingly at a fixed 100 ms interval; it
returns success exactly when the poll at its stopping tick reports exit
code 0; a nonzero exit code `c` at the stopping tick yields the failure
outcome carrying `c`; the Cancelled outcome happens exactly when the flag
is observed set while the process still runs, and exactly then a kill
request is issued; and the loop stops no later than any tick at which the
flag is set (cancellation latency of at most one polling interval). -/
theorem waitCmd_spec (fuel : Nat) (st : Nat → Poll) (dn : Nat → Bool)
    (o : WaitOutcome) (k : Bool) (ts : Nat)
    (h : waitCmd fuel st dn 0 = some (o, k, ts)) :
    pollIntervalMillis = 100 ∧
    (o = .success ↔ st ts = .exited 0) ∧
    (∀ c, c ≠ 0 → st ts = .exited c → o = .failedExit c) ∧
    (o = .cancelled ↔ (st ts = .running ∧ dn ts = true)) ∧
    (k = true ↔ o = .cancelled) ∧
    (∀ t0, dn t0 = true → ts ≤ t0) := by
  obtain ⟨-, hpre, hdisj⟩ := waitCmd_sound fuel st dn 0 _ _ _ h
  refine ⟨rfl, ?_, ?_, ?_, ?_, ?_⟩
  · constructor
    · intro ho
      rcases hdisj with ⟨-, -, hst⟩ | ⟨c, -, hco, -, -⟩ | ⟨hco, -, -⟩ | ⟨hco, -, -, -⟩
      · exact hst
      · rw [ho] at hco; exact WaitOutcome.noConfusion hco
      · rw [ho] at hco; exact WaitOutcome.noConfusion hco
      · rw [ho] at hco; exact WaitOutcome.noConfusion hco
    · intro hst
      rcases hdisj with ⟨ho, -, -⟩ | ⟨c, hc, -, -, hst'⟩ | ⟨-, -, hst'⟩ | ⟨-, -, hst', -⟩
      · exact ho
      · rw [hst] at hst'; injection hst' with hcc; exact absurd hcc.symm hc
      · rw [hst] at hst'; exact Poll.noConfusion hst'
      · rw [hst] at hst'; exact Poll.noConfusion hst'
  · intro c hc hst
    rcases hdisj with ⟨-, -, hst'⟩ | ⟨c', -, ho, -, hst'⟩ | ⟨-, -, hst'⟩ | ⟨-, -, hst', -⟩
    · rw [hst] at hst'; injection hst' with hcc; exact absurd hcc hc
    · rw [hst] at hst'; injection hst' with hcc; rw [ho, hcc]
    · rw [hst] at hst'; exact Poll.noConfusion hst'
    · rw [hst] at hst'; exact Poll.noConfusion hst'
  · constructor
    · intro ho
      rcases hdisj with ⟨hco, -, -⟩ | ⟨c, -, hco, -, -⟩ | ⟨hco, -, -⟩ | ⟨-, -, hst, hdn⟩
      · rw [ho] at hco; exact WaitOutcome.noConfusion hco
      · rw [ho] at hco; exact WaitOutcome.noConfusion hco
      · rw [ho] at hco; exact WaitOutcome.noConfusion hco
      · exact ⟨hst, hdn⟩
    · rintro ⟨hst, -⟩
      rcases hdisj with ⟨-, -, hst'⟩ | ⟨c, -, -, -, hst'⟩ | ⟨-, -, hst'⟩ | ⟨ho, -, -, -⟩
      · rw [hst] at hst'; exact Poll.noConfusion hst'
      · rw [hst] at hst'; exact Poll.noConfusion hst'
      · rw [hst] at hst'; exact Poll.noConfusion hst'
      · exact ho
  · constructor
    · intro hk
      rcases hdisj with ⟨-, hk', -⟩ | ⟨c, -, -, hk', -⟩ | ⟨-, hk', -⟩ | ⟨ho, -, -, -⟩
      · rw [hk] at hk'; exact Bool.noConfusion hk'
      · rw [hk] at hk'; exact Bool.noConfusion hk'
      · rw [hk] at hk'; exact Bool.noConfusion hk'
      · exact ho
    · intro ho
      rcases hdisj with ⟨hco, -, -⟩ | ⟨c, -, hco, -, -⟩ | ⟨hco, -, -⟩ | ⟨-, hk, -, -⟩
      · rw [ho] at hco; exact WaitOutcome.noConfusion hco
      · rw [ho] at hco; exact WaitOutcome.noConfusion hco
      · rw [ho] at hco; exact WaitOutcome.noConfusion hco
      · exact hk
  · intro t0 hd0
    by_contra hlt
    push_neg at hlt
    rw [(hpre t0 (Nat.zero_le t0) hlt).2] at hd0
    exact Bool.noConfusion hd0

/-- C5 (witness): a concrete wait over a process that exits with code 0,
and the cancellation-latency bound at a concrete cancelled wait. -/
theorem waitCmd_spec_witness :
    pollIntervalMillis = 100 ∧ (0 : Nat) ≤ 0 :=
  ⟨(waitCmd_spec 1 (fun _ => .exited 0) (fun _ => false) .success false 0 rfl).1,
   (waitCmd_spec 1 (fun _ => .running) (fun _ => true) .cancelled true 0 rfl).2.2.2.2.2 0 rfl⟩

/-- C6: whenever the relay loop stops on its break path — a zero-byte
read or the Cancellation Signal set — both pipe endpoints are dropped, and
on every control path of `download_run` that reaches a `wait_cmd` call the
endpoints were closed beforehand. -/
theorem relay_closes_before_wait (fuel : Nat) (env : DlEnv) :
    ((relay env.iters).stop = .orderly → (relay env.iters).closed = true) ∧
    ((downloadRun fuel env).waitedA = true → (downloadRun fuel env).closedEndpoints = true) :=
  ⟨relay_orderly_closed env.iters, (downloadRun_invariants fuel env).2.1⟩

/-- C6 (witness): a concrete run that reaches the waits with both
endpoints closed. -/
theorem relay_closes_before_wait_witness :
    (relay ([] : List RelayIter)).closed = true ∧
    (downloadRun 1 ⟨true, true, [], fun _ => .exited 0, fun _ => .exited 0,
        fun _ => false, fun _ => false, []⟩).closedEndpoints = true :=
  ⟨(relay_closes_before_wait 1 ⟨true, true, [], fun _ => .exited 0, fun _ => .exited 0,
      fun _ => false, fun _ => false, []⟩).1 rfl,
   (relay_closes_before_wait 1 ⟨true, true, [], fun _ => .exited 0, fun _ => .exited 0,
      fun _ => false, fun _ => false, []⟩).2 rfl⟩

/-- C7: a Diagnostic Drain failure is never escalated: the `Result` of
`download_run` does not depend on what the stderr thread read, and the
drain loop treats a read error exactly like end-of-input — both merely
stop the loop. -/
theorem drain_not_escalated (fuel : Nat) (env : DlEnv) (ls : List LineRes) :
    (downloadRun fuel { env with stderrLines := ls }).result = (downloadRun fuel env).result ∧
    ∀ pre, drainLoop (pre ++ [.lineErr]) = drainLoop (pre ++ [.eofLine]) := by
  refine ⟨(downloadRun_invariants fuel env).2.2 ls, ?_⟩
  intro pre
  induction pre with
  | nil => rfl
  | cons x rest ih => cases x <;> simp [drainLoop, ih]

/-- C8: the interrupt handler's `signal` (store of `true`) is idempotent —
any number of calls leaves the flag exactly as one call does — and `kill`
on a handle whose process has already exited but was not yet reaped does
not return an error; `wait_cmd` only ever kills a handle whose last poll
reported Running, that is, an unreaped handle. -/
theorem signal_idem_kill_exited_ok :
    (∀ b, signal (signal b) = signal b) ∧
    (∀ h : ChildHandle, h.exited = true → h.reaped = false → killChild h = .ok ()) ∧
    (∀ (fuel : Nat) (st : Nat → Poll) (dn : Nat → Bool) (t : Nat) (k : Bool) (ts : Nat),
      waitCmd fuel st dn t = some (.cancelled, k, ts) → st ts = .running) := by
  refine ⟨fun _ => rfl, fun h _ hr => by simp [killChild, hr], ?_⟩
  intro fuel st dn t k ts hw
  obtain ⟨-, -, hdisj⟩ := waitCmd_sound fuel st dn t _ _ _ hw
  rcases hdisj with ⟨hco, -, -⟩ | ⟨c, -, hco, -, -⟩ | ⟨hco, -, -⟩ | ⟨-, -, hrun, -⟩
  · exact WaitOutcome.noConfusion hco
  · exact WaitOutcome.noConfusion hco
  · exact WaitOutcome.noConfusion hco
  · exact hrun

/-- C8 (witness): concrete instances of all three parts. -/
theorem signal_idem_kill_exited_ok_witness :
    signal (signal false) = signal false ∧
    killChild ⟨true, false⟩ = .ok () ∧
    (fun _ : Nat => Poll.running) 0 = Poll.running :=
  ⟨signal_idem_kill_exited_ok.1 false,
   signal_idem_kill_exited_ok.2.1 ⟨true, false⟩ rfl rfl,
   signal_idem_kill_exited_ok.2.2 1 (fun _ => .running) (fun _ => true) 0 true 0 rfl⟩

/-- C9: when any run object in the `data` array is missing one of the
required string fields (id, videos.links[0].uri, first player's
international name, game abbreviation, game twitch name, category name,
or primary time), `get_pending_runs` returns an error for the entire
response instead of the well-formed runs: the `collect` over `Run::try_from`
fails as a whole on the first bad element. -/
theorem getPendingRuns_all_or_nothing (pd : String → Except String Nat)
    (body : JVal) (xs : List JVal) (v : JVal)
    (harr : (body.get "data").asArr = some xs) (hmem : v ∈ xs)
    (hbad : (v.get "id").asStr = none ∨
      ((((v.get "videos").get "links").getIdx 0).get "uri").asStr = none ∨
      (((((v.get "players").get "data").getIdx 0).get "names").get "international").asStr
        = none ∨
      (((v.get "game").get "data").get "abbreviation").asStr = none ∨
      ((((v.get "game").get "data").get "names").get "twitch").asStr = none ∨
      (((v.get "category").get "data").get "name").asStr = none ∨
      ((v.get "times").get "primary").asStr = none) :
    ∃ e, getPendingRuns pd body = .error e := by
  cases hm : xs.mapM (runTryFrom pd) with
  | error e =>
    refine ⟨e, ?_⟩
    unfold getPendingRuns
    rw [harr]
    exact hm
  | ok ys =>
    exfalso
    obtain ⟨r, hr⟩ := mapM_ok_mem (runTryFrom pd) xs ys hm v hmem
    obtain ⟨f1, f2, f3, f4, f5, f6, f7, -⟩ := runTryFrom_ok_fields pd v r hr
    rcases hbad with hb | hb | hb | hb | hb | hb | hb
    · rw [hb] at f1; exact Option.noConfusion f1
    · rw [hb] at f2; exact Option.noConfusion f2
    · rw [hb] at f3; exact Option.noConfusion f3
    · rw [hb] at f4; exact Option.noConfusion f4
    · rw [hb] at f5; exact Option.noConfusion f5
    · rw [hb] at f6; exact Option.noConfusion f6
    · exact f7 hb

/-- C9 (witness): a response whose `data` array holds one empty run
object makes the whole call error out. -/
theorem getPendingRuns_all_or_nothing_witness :
    ∃ e, getPendingRuns (fun _ => .ok 0) (.obj [("data", .arr [.obj []])]) = .error e :=
  getPendingRuns_all_or_nothing (fun _ => .ok 0) (.obj [("data", .arr [.obj []])])
    [.obj []] (.obj []) rfl (List.Mem.head _) (Or.inl rfl)

/-- C10: every character of a `slug` result is an ASCII lowercase letter
or an ASCII digit — in particular neither a separator `-` nor a space —
and the `cat` component of any `Run` built by `Run::try_from` (the
category component of `Run::filename`) is exactly the slug of the
category name. -/
theorem slug_ascii_lower_alnum :
    (∀ s : String, ∀ c ∈ (slug s).data,
      ((97 ≤ c.toNat ∧ c.toNat ≤ 122) ∨ (48 ≤ c.toNat ∧ c.toNat ≤ 57)) ∧
        c ≠ '-' ∧ c ≠ ' ') ∧
    ∀ (pd : String → Except String Nat) (v : JVal) (r : Run),
      runTryFrom pd v = .ok r → r.cat = slug r.cat_full := by
  constructor
  · intro s c hc
    have hcl := slug_mem_class s c hc
    refine ⟨hcl, ?_, ?_⟩
    · intro he
      subst he
      revert hcl
      decide
    · intro he
      subst he
      revert hcl
      decide
  · intro pd v r h
    exact (runTryFrom_ok_fields pd v r h).2.2.2.2.2.2.2

/-- C10 (witness): a concrete slug and a concrete parsed run. -/
theorem slug_ascii_lower_alnum_witness :
    (((97 ≤ ('a' : Char).toNat ∧ ('a' : Char).toNat ≤ 122) ∨
      (48 ≤ ('a' : Char).toNat ∧ ('a' : Char).toNat ≤ 57)) ∧
      ('a' : Char) ≠ '-' ∧ ('a' : Char) ≠ ' ') ∧
    (Run.mk "r1" "u" "P" "g" "G" "Any% NG+" "anyng" "01:02:03").cat =
      slug (Run.mk "r1" "u" "P" "g" "G" "Any% NG+" "anyng" "01:02:03").cat_full :=
  ⟨slug_ascii_lower_alnum.1 "Any% NG+" 'a' (by decide),
   slug_ascii_lower_alnum.2 (fun _ => .ok 3723)
    (.obj [("id", .str "r1"),
      ("videos", .obj [("links", .arr [.obj [("uri", .str "u")]])]),
      ("players", .obj [("data", .arr [.obj [("names",
        .obj [("international", .str "P")])]])]),
      ("game", .obj [("data", .obj [("abbreviation", .str "g"),
        ("names", .obj [("twitch", .str "G")])])]),
      ("category", .obj [("data", .obj [("name", .str "Any% NG+")])]),
      ("times", .obj [("primary", .str "PT1H2M3S")])])
    (Run.mk "r1" "u" "P" "g" "G" "Any% NG+" "anyng" "01:02:03") rfl⟩

end Dlvod
